import Mathlib

/-!
Verification development for srcYUML: a shallow embedding of the
relationship merger and node construction in
`src/layout_engine/load_graph.hpp` (`svg_sugiyama_outputter::output`),
the stereotype classifier in `srcyuml_class.hpp`
(`srcyuml_class::analyze_data`), and the SVG renderer (`SvgPrinter`).
Real-valued quantities of the C++ code (`double`) are modelled as exact
rationals (`ℚ`).
-/

/- ================================================================
   Relationship kinds and the merger of `svg_sugiyama_outputter::output`
   ================================================================ -/

/-- The `relationship_type` enumeration of srcUML. -/
inductive relationship_type
  | DEPENDENCY
  | ASSOCIATION
  | BIDIRECTIONAL
  | AGGREGATION
  | COMPOSITION
  | GENERALIZATION
  | REALIZATION
deriving DecidableEq, Fintype

open relationship_type

/-- A `srcuml_relationship` record: source class name, destination class
name, and relationship kind. -/
structure srcuml_relationship where
  source : String
  destination : String
  type : relationship_type
deriving DecidableEq

/-- An endpoint of an edge in `output()`: the C++ variables `lhs`, `rhs`
are `ogdf::node` values, left uninitialized when the class-name lookup in
`class_node_map` fails.  `none` models the uninitialized node. -/
abbrev NodeRef := Option ℕ

/-- Key of `edge_type_map` in `output()`: the ordered `(lhs, rhs)` pair. -/
abbrev EdgeKey := NodeRef × NodeRef

/-- The if/else-if chain of `output()` that replaces an already stored
kind by an incoming one: ASSOCIATION is replaced by
BIDIRECTIONAL/AGGREGATION/COMPOSITION, BIDIRECTIONAL by
AGGREGATION/COMPOSITION, AGGREGATION by COMPOSITION; everything else
keeps the stored kind. -/
def upgrade_type (stored incoming : relationship_type) : relationship_type :=
  if stored = ASSOCIATION ∧
      (incoming = BIDIRECTIONAL ∨ incoming = AGGREGATION ∨ incoming = COMPOSITION) then
    incoming
  else if stored = BIDIRECTIONAL ∧ (incoming = AGGREGATION ∨ incoming = COMPOSITION) then
    incoming
  else if stored = AGGREGATION ∧ incoming = COMPOSITION then
    incoming
  else
    stored

/-- One step of `output()`'s per-record processing on `edge_type_map`:
`find` the key; if absent, insert the record's kind; if present, update
the stored kind through the if/else-if chain. -/
def edge_map_insert :
    List (EdgeKey × relationship_type) → EdgeKey → relationship_type →
      List (EdgeKey × relationship_type)
  | [], k, t => [(k, t)]
  | (k', t') :: rest, k, t =>
    if k = k' then (k', upgrade_type t' t) :: rest
    else (k', t') :: edge_map_insert rest k t

/-- Lookup of the first entry with the given key (models
`edge_type_map.find`). -/
def edge_map_lookup :
    List (EdgeKey × relationship_type) → EdgeKey → Option relationship_type
  | [], _ => none
  | (k', t') :: rest, k => if k = k' then some t' else edge_map_lookup rest k

/-- `class_node_map` lookup: classes are numbered by their position in
the class list (the order in which `output()` creates the nodes); a name
that was never inserted yields `none` (the uninitialized `ogdf::node`). -/
def class_node_map (classes : List String) (name : String) : Option ℕ :=
  classes.indexOf? name

/-- The key under which `output()` files a relationship record: the
ordered pair of looked-up endpoint nodes. -/
def record_key (classes : List String) (r : srcuml_relationship) : EdgeKey :=
  (class_node_map classes r.source, class_node_map classes r.destination)

/-- The whole relationship loop of `output()`: fold every record into
`edge_type_map`, starting from the empty map. -/
def build_edge_type_map (classes : List String) (rels : List srcuml_relationship) :
    List (EdgeKey × relationship_type) :=
  rels.foldl (fun m r => edge_map_insert m (record_key classes r) r.type) []

/-- The edges `output()` then creates in the OGDF graph: one `newEdge`
per entry of `edge_type_map`, keeping the endpoint pair. -/
def graph_edges (classes : List String) (rels : List srcuml_relationship) :
    List EdgeKey :=
  (build_edge_type_map classes rels).map Prod.fst

/-- Number of entries of the map stored under one ordered key. -/
def edge_count_for_key :
    List (EdgeKey × relationship_type) → EdgeKey → ℕ
  | [], _ => 0
  | (k', _) :: rest, k => (if k = k' then 1 else 0) + edge_count_for_key rest k

/-- Number of entries of the map whose key matches the unordered class
pair `{a, b}` in either direction. -/
def unordered_edge_count :
    List (EdgeKey × relationship_type) → ℕ → ℕ → ℕ
  | [], _, _ => 0
  | (k', _) :: rest, a, b =>
    (if k' = (some a, some b) ∨ k' = (some b, some a) then 1 else 0) +
      unordered_edge_count rest a b

/-- Membership of a kind in the dominance chain
{ASSOCIATION, BIDIRECTIONAL, AGGREGATION, COMPOSITION}. -/
def in_chain : relationship_type → Bool
  | ASSOCIATION => true
  | BIDIRECTIONAL => true
  | AGGREGATION => true
  | COMPOSITION => true
  | _ => false

/-- Position within the dominance chain. -/
def chain_rank : relationship_type → ℕ
  | ASSOCIATION => 0
  | BIDIRECTIONAL => 1
  | AGGREGATION => 2
  | COMPOSITION => 3
  | _ => 0

/-- Kinds of the records that `output()` files under the key `k`, in
arrival order. -/
def kinds_for (classes : List String) (rels : List srcuml_relationship)
    (k : EdgeKey) : List relationship_type :=
  rels.filterMap (fun r => if record_key classes r = k then some r.type else none)

/-- The resolved kind after folding one incoming kind into an optional
stored kind. -/
def merge_step : Option relationship_type → relationship_type → relationship_type
  | none, t => t
  | some t', t => upgrade_type t' t

/-- Folding a whole kind list into an optional stored kind. -/
def merge_kinds (acc : Option relationship_type) :
    List relationship_type → Option relationship_type
  | [] => acc
  | t :: ts => merge_kinds (some (merge_step acc t)) ts

/- ================================================================
   Stereotype classifier: `srcyuml_class::analyze_data`
   ================================================================ -/

/-- The `class_type` enumeration of `srcyuml_class`. -/
inductive class_type
  | NONE
  | INTERFACE
  | ABSTRACT
  | DATATYPE
deriving DecidableEq

/-- The part of `FunctionSignaturePolicy::FunctionSignatureData` that
`analyze_data` inspects. -/
structure FunctionSignatureData where
  isPureVirtual : Bool
deriving DecidableEq

/-- The part of `ClassPolicy::ClassData` that `analyze_data` inspects:
fields, constructors and methods partitioned by access specifier, and
the destructor flag.  Field and constructor entries are opaque
declaration texts. -/
structure ClassData where
  fields_public : List String
  fields_private : List String
  fields_protected : List String
  constructors_public : List String
  constructors_private : List String
  constructors_protected : List String
  methods_public : List FunctionSignatureData
  methods_private : List FunctionSignatureData
  methods_protected : List FunctionSignatureData
  hasDestructor : Bool
deriving DecidableEq

/-- `srcyuml_class::analyze_data`, returning the computed `class_type`
(the member `type` starts as NONE and is only assigned in the two
branches shown in the source). -/
def analyze_data (d : ClassData) : class_type :=
  let has_field := !d.fields_public.isEmpty || !d.fields_private.isEmpty ||
    !d.fields_protected.isEmpty
  let has_constructor := !d.constructors_public.isEmpty ||
    !d.constructors_private.isEmpty || !d.constructors_protected.isEmpty
  let has_destructor := d.hasDestructor
  let has_method := !d.methods_public.isEmpty || !d.methods_private.isEmpty ||
    !d.methods_protected.isEmpty
  let only_public_methods := !d.methods_public.isEmpty &&
    d.methods_private.isEmpty && d.methods_protected.isEmpty
  if !has_constructor && !has_method then
    class_type.DATATYPE
  else if !has_constructor && !has_field && !has_destructor && only_public_methods then
    if d.methods_public.all (fun f => f.isPureVirtual) then class_type.INTERFACE
    else class_type.NONE
  else
    class_type.NONE

/- ================================================================
   Node sizing in `svg_sugiyama_outputter::output`
   ================================================================ -/

/-- Height assigned to a node: `h = num_lines * 1.3 * 10`. -/
def node_height (num_lines : ℚ) : ℚ := num_lines * 1.3 * 10

/-- Width assigned to a node: `w = longest_line * .75 * 10`. -/
def node_width (longest_line : ℚ) : ℚ := longest_line * 0.75 * 10

/- ================================================================
   SvgPrinter geometry: points, covered regions, edge trimming
   ================================================================ -/

/-- OGDF `DPoint`, over exact rationals. -/
structure DPoint where
  m_x : ℚ
  m_y : ℚ
deriving DecidableEq

instance : Add DPoint := ⟨fun p q => ⟨p.m_x + q.m_x, p.m_y + q.m_y⟩⟩

instance : Sub DPoint := ⟨fun p q => ⟨p.m_x - q.m_x, p.m_y - q.m_y⟩⟩

instance : HMul ℚ DPoint DPoint := ⟨fun a p => ⟨a * p.m_x, a * p.m_y⟩⟩

/-- Per-node graph attributes used by `SvgPrinter`: center coordinates
and box size. -/
structure NodeGeom where
  x : ℚ
  y : ℚ
  width : ℚ
  height : ℚ
deriving DecidableEq

/-- Per-edge attribute context used by `SvgPrinter`: which
`GraphAttributes` bits are present, whether the graph is directed, and
the edge's stroke width. -/
structure EdgeStyleCtx where
  hasEdgeArrow : Bool
  directed : Bool
  hasEdgeStyle : Bool
  strokeWidth : ℚ
deriving DecidableEq

/-- `SvgPrinter::getArrowSize(e, v)`: zero unless arrows apply, else the
maximum of three stroke widths and a sixteenth of the summed extents of
the two adjacent nodes (`w` is the node opposite `v` on the edge). -/
def getArrowSize (ctx : EdgeStyleCtx) (v w : NodeGeom) : ℚ :=
  if ctx.hasEdgeArrow || ctx.directed then
    max ((if ctx.hasEdgeStyle then ctx.strokeWidth else 1) * 3)
      ((v.width + v.height + w.width + w.height) / 16)
  else 0

/-- `SvgPrinter::isCoveredBy(point, e, v)`: membership in the node's
rectangle expanded on all sides by the arrow size. -/
def isCoveredBy (p : DPoint) (ctx : EdgeStyleCtx) (v w : NodeGeom) : Bool :=
  let arrowSize := getArrowSize ctx v w
  decide (v.x - v.width / 2 - arrowSize ≤ p.m_x) &&
  decide (p.m_x ≤ v.x + v.width / 2 + arrowSize) &&
  decide (v.y - v.height / 2 - arrowSize ≤ p.m_y) &&
  decide (p.m_y ≤ v.y + v.height / 2 + arrowSize)

/-- First candidate tip of `SvgPrinter::drawArrowHead` (`dx ≠ 0`
branch): the intersection of the line through `start`/`en` with the
vertical rectangle side of `v` facing `start` (no clearance is added to
the side's coordinate). -/
def vertical_side_tip (v : NodeGeom) (start en : DPoint) : DPoint :=
  let dx := en.m_x - start.m_x
  let dy := en.m_y - start.m_y
  let slope := dy / dx
  let sign : ℚ := if dx > 0 then 1 else -1
  let x := v.x - v.width / 2 * sign
  let delta := x - start.m_x
  ⟨x, start.m_y + delta * slope⟩

/-- Fallback tip of `SvgPrinter::drawArrowHead`: the intersection with
the horizontal rectangle side of `v` facing `start`. -/
def horizontal_side_tip (v : NodeGeom) (start en : DPoint) : DPoint :=
  let dx := en.m_x - start.m_x
  let dy := en.m_y - start.m_y
  let slope := dy / dx
  let sign2 : ℚ := if dy > 0 then 1 else -1
  let y2 := v.y - v.height / 2 * sign2
  let delta2 := y2 - start.m_y
  ⟨start.m_x + delta2 / slope, y2⟩

/-- The tip location of `SvgPrinter::drawArrowHead` in its `dx ≠ 0`
branch: try the vertical side; if that intersection is not covered by
`v`'s expanded region, fall back to the horizontal side. -/
def arrowTip (ctx : EdgeStyleCtx) (v w : NodeGeom) (start en : DPoint) : DPoint :=
  if isCoveredBy (vertical_side_tip v start en) ctx v w then
    vertical_side_tip v start en
  else horizontal_side_tip v start en

/-- Result of `SvgPrinter::drawArrowHead`: the relocated `end` point
(the parameter is passed by reference and written through) and the flat
coordinate list handed to `drawPolygon`. -/
structure ArrowHead where
  newEnd : DPoint
  poly : List ℚ
deriving DecidableEq

/-- `SvgPrinter::drawArrowHead(start, end, v, e)`.  `nrm` models
`std::sqrt(dx2*dx2 + dy2*dy2)` applied to a vector, i.e. the Euclidean
norm, which is not rational-valued in general; theorems constrain it
where its defining property is needed. -/
def drawArrowHead (nrm : DPoint → ℚ) (ctx : EdgeStyleCtx) (v w : NodeGeom)
    (start en : DPoint) : ArrowHead :=
  let dx := en.m_x - start.m_x
  let dy := en.m_y - start.m_y
  let size := getArrowSize ctx v w
  if dx = 0 then
    let sign : ℚ := if dy > 0 then 1 else -1
    let y := v.y - v.height / 2 * sign
    { newEnd := ⟨en.m_x, y - sign * size⟩
      poly := [en.m_x, y,
               en.m_x - size / 4, y - size * sign,
               en.m_x + size / 4, y - size * sign] }
  else
    let tip := arrowTip ctx v w start en
    let dx2 := tip.m_x - start.m_x
    let dy2 := tip.m_y - start.m_y
    let length := nrm ⟨dx2, dy2⟩
    let ux := dx2 / length
    let uy := dy2 / length
    let mx := tip.m_x - size * ux
    let my := tip.m_y - size * uy
    { newEnd := tip
      poly := [tip.m_x, tip.m_y,
               mx - size / 4 * uy, my + size / 4 * ux,
               mx + size / 4 * uy, my - size / 4 * ux] }

/-- The point-collection loop of `SvgPrinter::drawEdge`: walk the
polyline pairwise; start collecting at the segment that leaves the
source's covered region, stop at the segment that enters the target's
covered region.  When the respective arrow is drawn, `drawArrowHead`
relocates the local copy of the segment endpoint before it is pushed. -/
def trimLoop (nrm : DPoint → ℚ) (ctx : EdgeStyleCtx) (s t : NodeGeom)
    (dsa dta : Bool) :
    List DPoint → Bool → Bool → List DPoint → List DPoint
  | [], _, _, acc => acc
  | p1 :: tail, drawSegment, finished, acc =>
    match tail with
    | [] => acc
    | p2 :: _ =>
      if finished then acc
      else
        let leaveSrc := isCoveredBy p1 ctx s t && !(isCoveredBy p2 ctx s t)
        let q1 := if leaveSrc && !drawSegment && dsa then
            (drawArrowHead nrm ctx s t p2 p1).newEnd
          else p1
        let seg := drawSegment || leaveSrc
        let enterTgt := !(isCoveredBy q1 ctx t s) && isCoveredBy p2 ctx t s
        let q2 := if enterTgt && dta then (drawArrowHead nrm ctx t s q1 p2).newEnd
          else p2
        let acc2 := acc ++ (if seg then [q1] else []) ++
          (if enterTgt then [q2] else [])
        trimLoop nrm ctx s t dsa dta tail seg enterTgt acc2

/-- The trimmed point list of `SvgPrinter::drawEdge`: layout bend points
with source and target centers prepended/appended, run through the
collection loop. -/
def drawEdgeTrim (nrm : DPoint → ℚ) (ctx : EdgeStyleCtx) (s t : NodeGeom)
    (bends : List DPoint) (dsa dta : Bool) : List DPoint :=
  trimLoop nrm ctx s t dsa dta
    (⟨s.x, s.y⟩ :: (bends ++ [⟨t.x, t.y⟩])) false false []

/- ================================================================
   SvgPrinter curve drawing: drawLine / drawLines / bezier / round
   ================================================================ -/

/-- One drawing command appended to the SVG path string. -/
inductive PathCmd
  | line (p1 p2 : DPoint)
  | bezier (p1 p2 c1 c2 : DPoint)
  | arc (pA pB : DPoint) (radius : ℚ) (sweep : Bool)
deriving DecidableEq

/-- `SvgPrinter::drawLines`: a straight segment between each pair of
consecutive points. -/
def drawLines : List DPoint → List PathCmd
  | [] => []
  | p :: tail =>
    match tail with
    | [] => []
    | q :: _ => PathCmd.line p q :: drawLines tail

/-- The while loop of `SvgPrinter::drawBezierPath`, carrying the `cLast`
control point. -/
def bezierLoop (c : ℚ) : DPoint → List DPoint → List PathCmd
  | _, [] => []
  | cLast, p1 :: tail =>
    match tail with
    | [] => []
    | [p2] => [PathCmd.bezier p1 p2 cLast ((0.5 : ℚ) * (p2 + p1))]
    | p2 :: p3 :: _ =>
      let delta := p2 - (0.5 : ℚ) * (p1 + p3)
      let c1 := p1 + c * delta + (1 - c) * (p2 - p1)
      let c2 := p3 + c * delta + (1 - c) * (p2 - p3)
      PathCmd.bezier p1 p2 cLast c1 :: bezierLoop c c2 tail

/-- `SvgPrinter::drawBezierPath` (callers guarantee at least two
points). -/
def drawBezierPath (c : ℚ) (points : List DPoint) : List PathCmd :=
  match points with
  | p1 :: p2 :: _ => bezierLoop c ((0.5 : ℚ) * (p1 + p2)) points
  | _ => []

/-- The while loop of `SvgPrinter::drawRoundPath`.  `nrm` models
`DPoint::norm` (Euclidean). -/
def roundLoop (nrm : DPoint → ℚ) (c : ℚ) : List DPoint → List PathCmd
  | [] => []
  | p1 :: tail =>
    match tail with
    | [] => []
    | [p2] => [PathCmd.line p2 ((0.5 : ℚ) * ((p1 + p2) + (1 - c) * (p1 - p2)))]
    | p2 :: p3 :: _ =>
      let v1 := p1 - p2
      let v2 := p3 - p2
      let length := min (nrm v1) (nrm v2) * c / 2
      let w1 := (length / nrm v1) * v1
      let w2 := (length / nrm v2) * v2
      let pA := p2 + w1
      let pB := p2 + w2
      let vA := p2 - p1
      let vB := p3 - p1
      PathCmd.line ((0.5 : ℚ) * (p1 + p2)) pA ::
      PathCmd.line ((0.5 : ℚ) * (p3 + p2)) pB ::
      PathCmd.arc pA pB length (decide (vA.m_x * vB.m_y - vA.m_y * vB.m_x > 0)) ::
      roundLoop nrm c tail

/-- `SvgPrinter::drawRoundPath` (callers guarantee at least two
points). -/
def drawRoundPath (nrm : DPoint → ℚ) (c : ℚ) (points : List DPoint) : List PathCmd :=
  match points with
  | p1 :: p2 :: _ =>
    PathCmd.line p1 ((0.5 : ℚ) * ((p1 + p2) + (1 - c) * (p2 - p1))) ::
      roundLoop nrm c points
  | _ => []

/-- `SvgPrinter::drawCurve`: exactly two points yield one straight
segment; otherwise the configured mode selects straight runs, bezier
interpolation, or rounded fillets. -/
def drawCurve (nrm : DPoint → ℚ) (curviness : ℚ) (bezierInterpolation : Bool)
    (points : List DPoint) : List PathCmd :=
  match points with
  | [p1, p2] => [PathCmd.line p1 p2]
  | _ =>
    if curviness = 0 then drawLines points
    else if bezierInterpolation then drawBezierPath curviness points
    else drawRoundPath nrm curviness points

/- ================================================================
   SvgPrinter::drawEdge results and SvgPrinter::draw
   ================================================================ -/

/-- The diagnostic text `drawEdge` sends to `GraphIO::logger.lout()`
when fewer than two trimmed points remain. -/
def overlapDiagnostic : String := "Could not draw edge since nodes are overlapping: "

/-- What one `drawEdge` call contributes: either a recorded diagnostic
(and no stroke) or the path commands of the edge's stroke. -/
inductive EdgeOut
  | diag (msg : String)
  | stroke (cmds : List PathCmd)
deriving DecidableEq

/-- One edge handed to `drawEdges`: endpoint geometry, layout bend
points, and the source/target arrow decisions of `drawEdge`. -/
structure EdgeSpec where
  s : NodeGeom
  t : NodeGeom
  bends : List DPoint
  dsa : Bool
  dta : Bool
deriving DecidableEq

/-- `SvgPrinter::drawEdge`: trim, then either log the overlap
diagnostic or emit the curve. -/
def drawEdgeOut (nrm : DPoint → ℚ) (ctx : EdgeStyleCtx) (curviness : ℚ)
    (bezierInterpolation : Bool) (e : EdgeSpec) : EdgeOut :=
  let points := drawEdgeTrim nrm ctx e.s e.t e.bends e.dsa e.dta
  if points.length < 2 then EdgeOut.diag overlapDiagnostic
  else EdgeOut.stroke (drawCurve nrm curviness bezierInterpolation points)

/-- `SvgPrinter::drawEdges`: every edge of the graph is processed, in
order. -/
def drawEdges (nrm : DPoint → ℚ) (ctx : EdgeStyleCtx) (curviness : ℚ)
    (bezierInterpolation : Bool) (es : List EdgeSpec) : List EdgeOut :=
  es.map (drawEdgeOut nrm ctx curviness bezierInterpolation)

/-- A `std::ostream`: the sequence of chunks written so far and the
fail state. -/
structure OStreamState where
  written : List String
  failbit : Bool
deriving DecidableEq

/-- Stream insertion: a stream in a failed state accepts no further
output. -/
def ostream_write (os : OStreamState) (s : String) : OStreamState :=
  if os.failbit then os else { os with written := os.written ++ [s] }

/-- `SvgPrinter::draw(std::ostream&)`: serializes the document to the
stream via `doc.save(os)` and returns `true` unconditionally — the
stream state is never consulted. -/
def SvgPrinter_draw (doc : String) (os : OStreamState) : OStreamState × Bool :=
  (ostream_write os doc, true)

/- ================================================================
   Concrete instances used by witnesses and counterexamples
   ================================================================ -/

/-- The per-edge context srcYUML sets up in `output()`: `edgeStyle` is
in the attribute mask, `strokeWidth` is set to 2, the OGDF graph is
directed by default, and `edgeArrow` is not in the mask. -/
def srcyuml_edge_ctx : EdgeStyleCtx :=
  { hasEdgeArrow := false, directed := true, hasEdgeStyle := true, strokeWidth := 2 }

/-- A 10×10 node box centered at the origin. -/
def cexSource : NodeGeom := { x := 0, y := 0, width := 10, height := 10 }

/-- A 10×10 node box centered at (100, 0), far from `cexSource`. -/
def cexTarget : NodeGeom := { x := 100, y := 0, width := 10, height := 10 }

/-- An edge between two fully overlapping node boxes. -/
def overlapEdge : EdgeSpec :=
  { s := cexSource, t := cexSource, bends := [], dsa := false, dta := false }

/-- A straight, bend-free edge from `cexSource` to `cexTarget`. -/
def straightEdge : EdgeSpec :=
  { s := cexSource, t := cexTarget, bends := [], dsa := false, dta := false }

/-- Modelled from the spec (§4.5, §8), for refutation: `p` lies strictly
outside `v`'s rectangle by at least the clearance `c`. -/
def strictly_outside_by (p : DPoint) (v : NodeGeom) (c : ℚ) : Bool :=
  decide (p.m_x < v.x - v.width / 2 - c) ||
  decide (v.x + v.width / 2 + c < p.m_x) ||
  decide (p.m_y < v.y - v.height / 2 - c) ||
  decide (v.y + v.height / 2 + c < p.m_y)

/-- Modelled from the spec (§4.5 arrow heads), for refutation: the tip
the spec describes — the intersection of the final segment with the
CLEARANCE-EXPANDED rectangle's vertical side facing the start. -/
def spec_expanded_vertical_tip (ctx : EdgeStyleCtx) (v w : NodeGeom)
    (start en : DPoint) : DPoint :=
  let dx := en.m_x - start.m_x
  let dy := en.m_y - start.m_y
  let slope := dy / dx
  let sign : ℚ := if dx > 0 then 1 else -1
  let size := getArrowSize ctx v w
  let x := v.x - (v.width / 2 + size) * sign
  ⟨x, start.m_y + (x - start.m_x) * slope⟩

/-- Squared Euclidean distance between two points. -/
def sqDist (p q : DPoint) : ℚ :=
  (p.m_x - q.m_x) ^ 2 + (p.m_y - q.m_y) ^ 2

/-- An 8×8 node box centered at the origin (arrow-head instance). -/
def arrowNode : NodeGeom := { x := 0, y := 0, width := 8, height := 8 }

/-- A class with fields and a destructor but neither constructors nor
methods. -/
def datatypeExample : ClassData :=
  { fields_public := ["int x"], fields_private := ["int y"], fields_protected := []
    constructors_public := [], constructors_private := [], constructors_protected := []
    methods_public := [], methods_private := [], methods_protected := []
    hasDestructor := true }

/-- Three same-direction records for the pair (A, B) carrying the chain
kinds Association, Aggregation, Bidirectional. -/
def relsABC : List srcuml_relationship :=
  [{ source := "A", destination := "B", type := ASSOCIATION },
   { source := "A", destination := "B", type := AGGREGATION },
   { source := "A", destination := "B", type := BIDIRECTIONAL }]

/- ================================================================
   Theorems
   ================================================================ -/

/-- C7: the builder sets height = lineCount × 1.3 × 10 and
width = longestLine × 0.75 × 10; closed forms 13·lines and 7.5·chars,
and the spec's instance: 3 lines, longest line 10 → height 39,
width 75. -/
theorem C7_node_sizing :
    node_height 3 = 39 ∧ node_width 10 = 75 ∧
    (∀ num_lines : ℚ, node_height num_lines = 13 * num_lines) ∧
    (∀ longest_line : ℚ, node_width longest_line = 15 / 2 * longest_line) := by
  refine ⟨by norm_num [node_height], by norm_num [node_width], ?_, ?_⟩ <;>
    intro q <;> simp [node_height, node_width] <;> ring

/-- C9: `SvgPrinter::draw` on a stream whose failbit is set writes
nothing, yet still returns `true` — the success indicator never reports
the failure. -/
theorem C9_draw_ignores_stream_failure :
    (SvgPrinter_draw "<svg/>" { written := [], failbit := true }).2 = true ∧
    (SvgPrinter_draw "<svg/>" { written := [], failbit := true }).1.written = [] := by
  constructor <;> rfl

/-- C2: with classes {A} and one record A→B whose destination B is
absent from the node set, the lookup fails, yet `output()` still files
the record under the pair (node A, uninitialized) and creates a graph
edge with that unresolved endpoint — the edge is not dropped. -/
theorem C2_unresolved_endpoint_edge_created :
    class_node_map ["A"] "B" = none ∧
    build_edge_type_map ["A"]
        [{ source := "A", destination := "B", type := ASSOCIATION }] =
      [((some 0, none), ASSOCIATION)] ∧
    graph_edges ["A"] [{ source := "A", destination := "B", type := ASSOCIATION }] =
      [(some 0, none)] := by
  refine ⟨rfl, rfl, rfl⟩

/-- C6: a class with zero constructors and zero methods is classified
DATATYPE — regardless of its fields and destructor — and is therefore
never classified INTERFACE. -/
theorem C6_datatype_rule (d : ClassData)
    (hc : d.constructors_public = [] ∧ d.constructors_private = [] ∧
      d.constructors_protected = [])
    (hm : d.methods_public = [] ∧ d.methods_private = [] ∧
      d.methods_protected = []) :
    analyze_data d = class_type.DATATYPE ∧
      analyze_data d ≠ class_type.INTERFACE := by
  obtain ⟨h1, h2, h3⟩ := hc
  obtain ⟨h4, h5, h6⟩ := hm
  have hd : analyze_data d = class_type.DATATYPE := by
    simp [analyze_data, h1, h2, h3, h4, h5, h6]
  exact ⟨hd, by simp [hd]⟩

/-- Witness for C6 at a class with two fields and a destructor. -/
theorem C6_datatype_rule_witness :
    analyze_data datatypeExample = class_type.DATATYPE ∧
      analyze_data datatypeExample ≠ class_type.INTERFACE :=
  C6_datatype_rule datatypeExample (by decide) (by decide)

/-- C10: a trimmed point list of exactly two points yields one straight
line segment, whatever the curviness and bezier-interpolation settings;
and on any list of fewer than three points `drawCurve` emits straight
segments only — the rounded and bezier modes never contribute. -/
theorem C10_two_point_straight_line (nrm : DPoint → ℚ) (curviness : ℚ)
    (bezierInterpolation : Bool) (p q : DPoint) :
    drawCurve nrm curviness bezierInterpolation [p, q] = [PathCmd.line p q] ∧
    ∀ points : List DPoint, points.length < 3 →
      ∀ cmd ∈ drawCurve nrm curviness bezierInterpolation points,
        ∃ a b, cmd = PathCmd.line a b := by
  constructor
  · rfl
  · intro points hlen cmd hcmd
    match points with
    | [] =>
      simp only [drawCurve] at hcmd
      split at hcmd
      · simp [drawLines] at hcmd
      · split at hcmd <;> simp [drawBezierPath, drawRoundPath] at hcmd
    | [a] =>
      simp only [drawCurve] at hcmd
      split at hcmd
      · simp [drawLines] at hcmd
      · split at hcmd <;> simp [drawBezierPath, drawRoundPath] at hcmd
    | [a, b] =>
      refine ⟨a, b, ?_⟩
      simpa [drawCurve] using hcmd
    | a :: b :: c :: rest =>
      simp only [List.length_cons] at hlen
      omega

/-- Witness for C10 with nonzero curviness and the bezier flag set. -/
theorem C10_two_point_straight_line_witness :
    drawCurve (fun _ => 1) (1 / 2) true [⟨0, 0⟩, ⟨2, 2⟩] =
      [PathCmd.line ⟨0, 0⟩ ⟨2, 2⟩] :=
  (C10_two_point_straight_line (fun _ => 1) (1 / 2) true ⟨0, 0⟩ ⟨2, 2⟩).1

/-- C8: an edge whose trimmed point list has fewer than two points
contributes exactly one recorded diagnostic and no stroke, while every
other edge of the document is still rendered (the edge loop is a total
map over the edge list). -/
theorem C8_overlap_skips_edge_only (nrm : DPoint → ℚ) (ctx : EdgeStyleCtx)
    (curviness : ℚ) (bi : Bool) (pre post : List EdgeSpec) (e : EdgeSpec)
    (h : (drawEdgeTrim nrm ctx e.s e.t e.bends e.dsa e.dta).length < 2) :
    drawEdges nrm ctx curviness bi (pre ++ e :: post) =
      drawEdges nrm ctx curviness bi pre ++
        EdgeOut.diag overlapDiagnostic :: drawEdges nrm ctx curviness bi post := by
  have he : drawEdgeOut nrm ctx curviness bi e = EdgeOut.diag overlapDiagnostic := by
    simp only [drawEdgeOut]
    rw [if_pos h]
  simp [drawEdges, he]

/-- Witness for C8: two fully overlapping node boxes, one healthy edge
after the degenerate one. -/
theorem C8_overlap_skips_edge_only_witness :
    drawEdges (fun _ => 1) srcyuml_edge_ctx 0 false
        ([] ++ overlapEdge :: [straightEdge]) =
      drawEdges (fun _ => 1) srcyuml_edge_ctx 0 false [] ++
        EdgeOut.diag overlapDiagnostic ::
          drawEdges (fun _ => 1) srcyuml_edge_ctx 0 false [straightEdge] :=
  C8_overlap_skips_edge_only (fun _ => 1) srcyuml_edge_ctx 0 false []
    [straightEdge] overlapEdge
    (by norm_num [overlapEdge, drawEdgeTrim, trimLoop, isCoveredBy, getArrowSize,
      srcyuml_edge_ctx, cexSource])

/-- C3 counterexample: a straight edge between the non-overlapping
boxes `cexSource` and `cexTarget` is trimmed to the path from the
source center to the target center, and the first emitted point — the
source center — is not strictly outside the source rectangle by the
clearance (it lies inside the rectangle). -/
theorem C3_counterexample :
    drawEdgeTrim (fun _ => 1) srcyuml_edge_ctx cexSource cexTarget [] false false =
      [⟨0, 0⟩, ⟨100, 0⟩] ∧
    strictly_outside_by ⟨0, 0⟩ cexSource
      (getArrowSize srcyuml_edge_ctx cexSource cexTarget) = false := by
  constructor
  · norm_num [drawEdgeTrim, trimLoop, isCoveredBy, getArrowSize,
      srcyuml_edge_ctx, cexSource, cexTarget]
  · norm_num [strictly_outside_by, getArrowSize, srcyuml_edge_ctx,
      cexSource, cexTarget]

/-- C3 (amended): trimming keeps, as first point, the last polyline
point still covered by the source's clearance-expanded region, and, as
last point, the first point covered by the target's region; hence for a
straight bend-free edge whose endpoint centers each lie outside the
other node's covered region, the emitted path is exactly
[source center, target center] — its endpoints lie within the covered
regions (inside the node boxes), not outside them. -/
theorem C3_trim_keeps_covered_endpoints (nrm : DPoint → ℚ) (ctx : EdgeStyleCtx)
    (s t : NodeGeom)
    (h1 : isCoveredBy ⟨s.x, s.y⟩ ctx s t = true)
    (h2 : isCoveredBy ⟨t.x, t.y⟩ ctx s t = false)
    (h3 : isCoveredBy ⟨s.x, s.y⟩ ctx t s = false)
    (h4 : isCoveredBy ⟨t.x, t.y⟩ ctx t s = true) :
    drawEdgeTrim nrm ctx s t [] false false = [⟨s.x, s.y⟩, ⟨t.x, t.y⟩] := by
  simp [drawEdgeTrim, trimLoop, h1, h2, h3, h4]

/-- Witness for C3's amended statement at the concrete geometry of the
counterexample. -/
theorem C3_trim_keeps_covered_endpoints_witness :
    drawEdgeTrim (fun _ => 1) srcyuml_edge_ctx cexSource cexTarget [] false false =
      [⟨0, 0⟩, ⟨100, 0⟩] := by
  have h := C3_trim_keeps_covered_endpoints (fun _ => 1) srcyuml_edge_ctx
    cexSource cexTarget
    (by norm_num [isCoveredBy, getArrowSize, srcyuml_edge_ctx, cexSource, cexTarget])
    (by norm_num [isCoveredBy, getArrowSize, srcyuml_edge_ctx, cexSource, cexTarget])
    (by norm_num [isCoveredBy, getArrowSize, srcyuml_edge_ctx, cexSource, cexTarget])
    (by norm_num [isCoveredBy, getArrowSize, srcyuml_edge_ctx, cexSource, cexTarget])
  simpa [cexSource, cexTarget] using h

/-- C5: `analyze_data` yields INTERFACE exactly when the class has no
constructor, no field, no destructor, at least one public method, no
private or protected method, and every public method is pure-virtual;
violating any of these conditions prevents the INTERFACE stereotype. -/
theorem C5_interface_rule (d : ClassData) :
    analyze_data d = class_type.INTERFACE ↔
      (d.constructors_public = [] ∧ d.constructors_private = [] ∧
        d.constructors_protected = [] ∧
        d.fields_public = [] ∧ d.fields_private = [] ∧ d.fields_protected = [] ∧
        d.hasDestructor = false ∧
        d.methods_public ≠ [] ∧ d.methods_private = [] ∧
        d.methods_protected = [] ∧
        ∀ f ∈ d.methods_public, f.isPureVirtual = true) := by
  constructor
  · intro h
    simp only [analyze_data] at h
    split_ifs at h with hA hB hC <;>
      first
        | contradiction
        | (simp only [Bool.and_eq_true, Bool.not_eq_true', Bool.not_eq_false',
             Bool.or_eq_false_iff, List.isEmpty_eq_true, List.isEmpty_eq_false] at hB
           simp only [List.all_eq_true] at hC
           tauto)
  · rintro ⟨h1, h2, h3, h4, h5, h6, h7, h8, h9, h10, h11⟩
    obtain ⟨f, fs, hmp⟩ : ∃ f fs, d.methods_public = f :: fs := by
      cases hq : d.methods_public with
      | nil => exact absurd hq h8
      | cons f fs => exact ⟨f, fs, rfl⟩
    rw [hmp] at h11
    have hall : ∀ x ∈ fs, x.isPureVirtual = true := fun x hx =>
      h11 x (List.mem_cons_of_mem f hx)
    have hf : f.isPureVirtual = true := h11 f (List.mem_cons_self f fs)
    simp [analyze_data, h1, h2, h3, h4, h5, h6, h7, h9, h10, hmp,
      List.all_eq_true, hf]
    exact hall

/-- Lookup after a single merger step: the queried key sees the merged
kind, every other key is untouched. -/
theorem edge_map_lookup_insert (m : List (EdgeKey × relationship_type))
    (k k0 : EdgeKey) (t : relationship_type) :
    edge_map_lookup (edge_map_insert m k t) k0 =
      if k0 = k then some (merge_step (edge_map_lookup m k) t)
      else edge_map_lookup m k0 := by
  induction m with
  | nil =>
    by_cases h0 : k0 = k <;>
      simp [edge_map_insert, edge_map_lookup, merge_step, h0]
  | cons e rest ih =>
    obtain ⟨k', t'⟩ := e
    by_cases hkk : k = k'
    · subst hkk
      by_cases h0 : k0 = k <;>
        simp [edge_map_insert, edge_map_lookup, merge_step, h0]
    · have hkk2 : ¬ (k' = k) := fun h => hkk h.symm
      by_cases h0 : k0 = k'
      · have h0k : ¬ (k0 = k) := fun h => hkk2 (h0 ▸ h : k' = k)
        simp [edge_map_insert, edge_map_lookup, hkk, h0, h0k, hkk2]
      · simp [edge_map_insert, edge_map_lookup, hkk, h0, ih]

/-- Lookup after folding a record list into the map: the result is the
fold of the kinds filed under the queried key over the initial stored
value. -/
theorem edge_map_lookup_foldl (classes : List String)
    (rels : List srcuml_relationship) :
    ∀ (m : List (EdgeKey × relationship_type)) (k : EdgeKey),
      edge_map_lookup
          (rels.foldl (fun m r => edge_map_insert m (record_key classes r) r.type) m)
          k =
        merge_kinds (edge_map_lookup m k) (kinds_for classes rels k) := by
  induction rels with
  | nil => intro m k; simp [kinds_for, merge_kinds]
  | cons r rs ih =>
    intro m k
    simp only [List.foldl_cons]
    rw [ih]
    by_cases h : record_key classes r = k
    · simp [kinds_for, List.filterMap_cons, h, edge_map_lookup_insert, merge_kinds]
    · have hs : ¬ (k = record_key classes r) := fun hx => h hx.symm
      simp [kinds_for, List.filterMap_cons, h, hs, edge_map_lookup_insert]

/-- Lookup in the finished `edge_type_map`. -/
theorem edge_map_lookup_build (classes : List String)
    (rels : List srcuml_relationship) (k : EdgeKey) :
    edge_map_lookup (build_edge_type_map classes rels) k =
      merge_kinds none (kinds_for classes rels k) := by
  have h := edge_map_lookup_foldl classes rels [] k
  simpa [build_edge_type_map, edge_map_lookup] using h

/-- The stored kind after an upgrade is one of the two participants. -/
theorem upgrade_type_mem :
    ∀ a b : relationship_type, upgrade_type a b = a ∨ upgrade_type a b = b := by
  decide

/-- Upgrading within the dominance chain stays in the chain. -/
theorem upgrade_type_chain :
    ∀ a b : relationship_type, in_chain a = true → in_chain b = true →
      in_chain (upgrade_type a b) = true := by
  decide

/-- Within the chain, the upgrade result dominates both participants. -/
theorem upgrade_type_rank :
    ∀ a b : relationship_type, in_chain a = true → in_chain b = true →
      chain_rank a ≤ chain_rank (upgrade_type a b) ∧
        chain_rank b ≤ chain_rank (upgrade_type a b) := by
  decide

/-- Chain rank separates chain members. -/
theorem chain_rank_injective :
    ∀ a b : relationship_type, in_chain a = true → in_chain b = true →
      chain_rank a = chain_rank b → a = b := by
  decide

/-- Folding a chain-only kind list yields a member of the list that
dominates every element — the chain maximum. -/
theorem merge_kinds_chain_max (ts : List relationship_type) :
    ∀ t0 : relationship_type, (∀ u ∈ t0 :: ts, in_chain u = true) →
      ∃ r, merge_kinds (some t0) ts = some r ∧ r ∈ t0 :: ts ∧
        ∀ u ∈ t0 :: ts, chain_rank u ≤ chain_rank r := by
  induction ts with
  | nil =>
    intro t0 h
    refine ⟨t0, rfl, List.mem_cons_self t0 [], ?_⟩
    intro u hu
    rcases List.mem_cons.mp hu with rfl | hu
    · exact le_refl _
    · cases hu
  | cons t ts ih =>
    intro t0 h
    have ht0 : in_chain t0 = true := h t0 (List.mem_cons_self _ _)
    have ht : in_chain t = true :=
      h t (List.mem_cons_of_mem _ (List.mem_cons_self _ _))
    have hupc : in_chain (upgrade_type t0 t) = true := upgrade_type_chain t0 t ht0 ht
    have hts : ∀ u ∈ upgrade_type t0 t :: ts, in_chain u = true := by
      intro u hu
      rcases List.mem_cons.mp hu with rfl | hu
      · exact hupc
      · exact h u (List.mem_cons_of_mem _ (List.mem_cons_of_mem _ hu))
    obtain ⟨r, hr1, hr2, hr3⟩ := ih (upgrade_type t0 t) hts
    refine ⟨r, hr1, ?_, ?_⟩
    · rcases List.mem_cons.mp hr2 with rfl | hmem
      · rcases upgrade_type_mem t0 t with e | e
        · rw [e]; exact List.mem_cons_self _ _
        · rw [e]; exact List.mem_cons_of_mem _ (List.mem_cons_self _ _)
      · exact List.mem_cons_of_mem _ (List.mem_cons_of_mem _ hmem)
    · intro u hu
      have hup := upgrade_type_rank t0 t ht0 ht
      have hub : chain_rank (upgrade_type t0 t) ≤ chain_rank r :=
        hr3 _ (List.mem_cons_self _ _)
      rcases List.mem_cons.mp hu with rfl | hu
      · exact le_trans hup.1 hub
      · rcases List.mem_cons.mp hu with rfl | hu
        · exact le_trans hup.2 hub
        · exact hr3 u (List.mem_cons_of_mem _ hu)

/-- Inserting into the map creates at most one new entry for the
inserted key and leaves all other keys' counts unchanged. -/
theorem edge_count_for_key_insert (m : List (EdgeKey × relationship_type))
    (k k0 : EdgeKey) (t : relationship_type) :
    edge_count_for_key (edge_map_insert m k t) k0 =
      if k0 = k then max (edge_count_for_key m k0) 1
      else edge_count_for_key m k0 := by
  induction m with
  | nil =>
    by_cases h0 : k0 = k <;> simp [edge_map_insert, edge_count_for_key, h0]
  | cons e rest ih =>
    obtain ⟨k', t'⟩ := e
    by_cases hkk : k = k'
    · subst hkk
      by_cases h0 : k0 = k <;>
        simp [edge_map_insert, edge_count_for_key, h0] <;> omega
    · by_cases h0 : k0 = k'
      · subst h0
        have h0k : ¬ (k0 = k) := fun h => hkk h.symm
        simp [edge_map_insert, edge_count_for_key, hkk, h0k, ih]
      · simp [edge_map_insert, edge_count_for_key, hkk, h0, ih]

/-- Every ordered key of the finished `edge_type_map` holds at most one
entry. -/
theorem edge_count_for_key_build_le_one (classes : List String)
    (rels : List srcuml_relationship) (k : EdgeKey) :
    edge_count_for_key (build_edge_type_map classes rels) k ≤ 1 := by
  suffices h : ∀ (m : List (EdgeKey × relationship_type)),
      (∀ k0, edge_count_for_key m k0 ≤ 1) →
      ∀ k0, edge_count_for_key
        (rels.foldl (fun m r => edge_map_insert m (record_key classes r) r.type) m)
        k0 ≤ 1 by
    exact h [] (fun k0 => by simp [edge_count_for_key]) k
  induction rels with
  | nil => intro m hm k0; simpa using hm k0
  | cons r rs ih =>
    intro m hm k0
    simp only [List.foldl_cons]
    refine ih _ (fun k1 => ?_) k0
    rw [edge_count_for_key_insert]
    by_cases h1 : k1 = record_key classes r
    · have h2 := hm (record_key classes r)
      simp [h1]
      omega
    · simp [h1]
      exact hm k1

/-- C1 counterexample: records Association(A→B) and Aggregation(B→A)
for the same unordered class pair {A, B} are filed under two distinct
ordered keys, so the merger produces two merged edges for the pair
instead of at most one. -/
theorem C1_counterexample :
    1 < unordered_edge_count
      (build_edge_type_map ["A", "B"]
        [{ source := "A", destination := "B", type := ASSOCIATION },
         { source := "B", destination := "A", type := AGGREGATION }]) 0 1 := by
  decide

/-- C1 (amended): the merge map is keyed by the ORDERED (source node,
destination node) pair.  For every ordered key: at most one merged edge
is produced, and when all records filed under that key carry dominance
chain kinds, the resolved kind is the chain maximum of those kinds —
a member of the arriving kinds dominating all of them, invariant under
any permutation of the record list. -/
theorem C1_merger_ordered_pair_max (classes : List String)
    (rels : List srcuml_relationship) (k : EdgeKey)
    (hchain : ∀ u ∈ kinds_for classes rels k, in_chain u = true)
    (hne : kinds_for classes rels k ≠ []) :
    edge_count_for_key (build_edge_type_map classes rels) k ≤ 1 ∧
    ∃ r, edge_map_lookup (build_edge_type_map classes rels) k = some r ∧
      r ∈ kinds_for classes rels k ∧
      (∀ u ∈ kinds_for classes rels k, chain_rank u ≤ chain_rank r) ∧
      ∀ rels' : List srcuml_relationship, rels'.Perm rels →
        edge_map_lookup (build_edge_type_map classes rels') k = some r := by
  refine ⟨edge_count_for_key_build_le_one classes rels k, ?_⟩
  obtain ⟨t0, ts, hk⟩ : ∃ t0 ts, kinds_for classes rels k = t0 :: ts := by
    cases hq : kinds_for classes rels k with
    | nil => exact absurd hq hne
    | cons a l => exact ⟨a, l, rfl⟩
  have hch : ∀ u ∈ t0 :: ts, in_chain u = true := by
    rw [← hk]; exact hchain
  obtain ⟨r, hr1, hr2, hr3⟩ := merge_kinds_chain_max ts t0 hch
  have hlook : edge_map_lookup (build_edge_type_map classes rels) k = some r := by
    rw [edge_map_lookup_build, hk]
    simpa [merge_kinds, merge_step] using hr1
  refine ⟨r, hlook, by rw [hk]; exact hr2, by rw [hk]; exact hr3, ?_⟩
  intro rels' hperm
  have hkperm : (kinds_for classes rels' k).Perm (kinds_for classes rels k) :=
    hperm.filterMap _
  obtain ⟨t0', ts', hk'⟩ : ∃ t0' ts', kinds_for classes rels' k = t0' :: ts' := by
    cases hq : kinds_for classes rels' k with
    | nil =>
      rw [hq, hk] at hkperm
      have := hkperm.symm.eq_nil
      simp at this
    | cons a l => exact ⟨a, l, rfl⟩
  have hch' : ∀ u ∈ t0' :: ts', in_chain u = true := by
    rw [← hk']
    intro u hu
    exact hchain u (hkperm.mem_iff.mp hu)
  obtain ⟨r', hr1', hr2', hr3'⟩ := merge_kinds_chain_max ts' t0' hch'
  have hlook' : edge_map_lookup (build_edge_type_map classes rels') k = some r' := by
    rw [edge_map_lookup_build, hk']
    simpa [merge_kinds, merge_step] using hr1'
  have hrmem : r ∈ kinds_for classes rels k := hk ▸ hr2
  have hrmem' : r' ∈ kinds_for classes rels k := by
    refine hkperm.mem_iff.mp ?_
    rw [hk']
    exact hr2'
  have hinr : in_chain r = true := hchain r hrmem
  have hinr' : in_chain r' = true := hchain r' hrmem'
  have hle : chain_rank r ≤ chain_rank r' := by
    refine hr3' r ?_
    rw [← hk']
    exact hkperm.mem_iff.mpr hrmem
  have hge : chain_rank r' ≤ chain_rank r := by
    refine hr3 r' ?_
    rw [← hk]
    exact hrmem'
  have hrr : r' = r := chain_rank_injective r' r hinr' hinr (le_antisymm hge hle)
  rw [hlook', hrr]

/-- Witness for C1's amended statement: the three chain kinds
Association, Aggregation, Bidirectional filed in one direction for the
pair (A, B) resolve to a single edge whose kind dominates all three —
Aggregation — under any arrival order. -/
theorem C1_merger_ordered_pair_max_witness :
    edge_count_for_key (build_edge_type_map ["A", "B"] relsABC)
        (some 0, some 1) ≤ 1 ∧
    ∃ r, edge_map_lookup (build_edge_type_map ["A", "B"] relsABC)
          (some 0, some 1) = some r ∧
      r ∈ kinds_for ["A", "B"] relsABC (some 0, some 1) ∧
      (∀ u ∈ kinds_for ["A", "B"] relsABC (some 0, some 1),
        chain_rank u ≤ chain_rank r) ∧
      ∀ rels' : List srcuml_relationship, rels'.Perm relsABC →
        edge_map_lookup (build_edge_type_map ["A", "B"] rels')
          (some 0, some 1) = some r :=
  C1_merger_ordered_pair_max ["A", "B"] relsABC (some 0, some 1)
    (by decide) (by decide)

/-- Componentwise unfolding of point addition. -/
theorem DPoint_add_def (p q : DPoint) : p + q = ⟨p.m_x + q.m_x, p.m_y + q.m_y⟩ := rfl

/-- Componentwise unfolding of point subtraction. -/
theorem DPoint_sub_def (p q : DPoint) : p - q = ⟨p.m_x - q.m_x, p.m_y - q.m_y⟩ := rfl

/-- Componentwise unfolding of scalar multiplication. -/
theorem DPoint_smul_def (a : ℚ) (p : DPoint) : a * p = ⟨a * p.m_x, a * p.m_y⟩ := rfl

/-- C4 counterexample: for a horizontal final segment approaching the
8×8 node from the right (clearance 6), the code places the tip at
(4, 0) — on the node's plain rectangle side x = v.x + width/2 — while
the intersection with the clearance-expanded boundary that the claim
describes is (10, 0). -/
theorem C4_counterexample :
    arrowTip srcyuml_edge_ctx arrowNode arrowNode ⟨20, 0⟩ ⟨0, 0⟩ = ⟨4, 0⟩ ∧
    (4 : ℚ) = arrowNode.x + arrowNode.width / 2 ∧
    spec_expanded_vertical_tip srcyuml_edge_ctx arrowNode arrowNode
      ⟨20, 0⟩ ⟨0, 0⟩ = ⟨10, 0⟩ ∧
    arrowTip srcyuml_edge_ctx arrowNode arrowNode ⟨20, 0⟩ ⟨0, 0⟩ ≠
      spec_expanded_vertical_tip srcyuml_edge_ctx arrowNode arrowNode
        ⟨20, 0⟩ ⟨0, 0⟩ := by
  refine ⟨?_, by norm_num [arrowNode], ?_, ?_⟩ <;>
    norm_num [arrowTip, vertical_side_tip, horizontal_side_tip,
      spec_expanded_vertical_tip, isCoveredBy, getArrowSize,
      srcyuml_edge_ctx, arrowNode]

/-- C4 (amended): the arrow tip always lies on the endpoint node's
PLAIN rectangle boundary (no clearance added), not on the
clearance-expanded boundary of the original claim.  For a vertical
final segment the tip sits on the horizontal side facing the start;
otherwise the vertical side is tried first and, when that intersection
is outside the covered (clearance-expanded) band, the tip falls back to
the plain horizontal side, staying on the segment's line whenever that
line is not horizontal.  The drawn head is an isoceles triangle of
length = clearance and half-base = clearance/4 aligned with the segment
direction, where clearance = max(strokeWidth×3, (sum of both adjacent
nodes' width+height)/16). -/
theorem C4_arrow_head_geometry (nrm : DPoint → ℚ) (ctx : EdgeStyleCtx)
    (v w : NodeGeom) (start en : DPoint) (len : ℚ)
    (harrow : (ctx.hasEdgeArrow || ctx.directed) = true)
    (hstyle : ctx.hasEdgeStyle = true) :
    getArrowSize ctx v w =
      max (ctx.strokeWidth * 3) ((v.width + v.height + w.width + w.height) / 16) ∧
    (en.m_x - start.m_x = 0 →
      ∃ tip b1 b2 : DPoint,
        (drawArrowHead nrm ctx v w start en).poly =
          [tip.m_x, tip.m_y, b1.m_x, b1.m_y, b2.m_x, b2.m_y] ∧
        tip.m_x = en.m_x ∧
        (tip.m_y = v.y - v.height / 2 ∨ tip.m_y = v.y + v.height / 2) ∧
        sqDist tip b1 = sqDist tip b2 ∧
        sqDist tip ((0.5 : ℚ) * (b1 + b2)) = getArrowSize ctx v w ^ 2 ∧
        sqDist b1 b2 = (getArrowSize ctx v w / 2) ^ 2) ∧
    (en.m_x - start.m_x ≠ 0 →
      (drawArrowHead nrm ctx v w start en).newEnd = arrowTip ctx v w start en) ∧
    (en.m_x - start.m_x ≠ 0 →
      isCoveredBy (vertical_side_tip v start en) ctx v w = true →
      arrowTip ctx v w start en = vertical_side_tip v start en ∧
      ((arrowTip ctx v w start en).m_x = v.x - v.width / 2 ∨
        (arrowTip ctx v w start en).m_x = v.x + v.width / 2) ∧
      ((arrowTip ctx v w start en).m_y - start.m_y) * (en.m_x - start.m_x) =
        ((arrowTip ctx v w start en).m_x - start.m_x) * (en.m_y - start.m_y)) ∧
    (en.m_x - start.m_x ≠ 0 →
      isCoveredBy (vertical_side_tip v start en) ctx v w = false →
      arrowTip ctx v w start en = horizontal_side_tip v start en ∧
      ((arrowTip ctx v w start en).m_y = v.y - v.height / 2 ∨
        (arrowTip ctx v w start en).m_y = v.y + v.height / 2) ∧
      (en.m_y - start.m_y ≠ 0 →
        ((arrowTip ctx v w start en).m_y - start.m_y) * (en.m_x - start.m_x) =
          ((arrowTip ctx v w start en).m_x - start.m_x) * (en.m_y - start.m_y))) ∧
    (en.m_x - start.m_x ≠ 0 →
      nrm ⟨(arrowTip ctx v w start en).m_x - start.m_x,
        (arrowTip ctx v w start en).m_y - start.m_y⟩ = len →
      0 < len →
      len ^ 2 = ((arrowTip ctx v w start en).m_x - start.m_x) ^ 2 +
        ((arrowTip ctx v w start en).m_y - start.m_y) ^ 2 →
      ∃ b1 b2 : DPoint,
        (drawArrowHead nrm ctx v w start en).poly =
          [(arrowTip ctx v w start en).m_x, (arrowTip ctx v w start en).m_y,
           b1.m_x, b1.m_y, b2.m_x, b2.m_y] ∧
        sqDist (arrowTip ctx v w start en) b1 =
          sqDist (arrowTip ctx v w start en) b2 ∧
        sqDist (arrowTip ctx v w start en) ((0.5 : ℚ) * (b1 + b2)) =
          getArrowSize ctx v w ^ 2 ∧
        sqDist b1 b2 = (getArrowSize ctx v w / 2) ^ 2) := by
  refine ⟨by simp [getArrowSize, harrow, hstyle], ?_, ?_, ?_, ?_, ?_⟩
  · intro h0
    by_cases hdy : en.m_y - start.m_y > 0
    · refine ⟨⟨en.m_x, v.y - v.height / 2⟩,
        ⟨en.m_x - getArrowSize ctx v w / 4,
          v.y - v.height / 2 - getArrowSize ctx v w⟩,
        ⟨en.m_x + getArrowSize ctx v w / 4,
          v.y - v.height / 2 - getArrowSize ctx v w⟩,
        ?_, rfl, Or.inl rfl, ?_, ?_, ?_⟩
      · simp [drawArrowHead, h0, hdy]
      · simp only [sqDist]
        ring
      · simp only [sqDist, DPoint_add_def, DPoint_smul_def]
        ring
      · simp only [sqDist]
        ring
    · refine ⟨⟨en.m_x, v.y + v.height / 2⟩,
        ⟨en.m_x - getArrowSize ctx v w / 4,
          v.y + v.height / 2 + getArrowSize ctx v w⟩,
        ⟨en.m_x + getArrowSize ctx v w / 4,
          v.y + v.height / 2 + getArrowSize ctx v w⟩,
        ?_, rfl, Or.inr rfl, ?_, ?_, ?_⟩
      · simp [drawArrowHead, h0, hdy]
      · simp only [sqDist]
        ring
      · simp only [sqDist, DPoint_add_def, DPoint_smul_def]
        ring
      · simp only [sqDist]
        ring
  · intro hdx
    simp [drawArrowHead, hdx]
  · intro hdx hcov
    have htipv : arrowTip ctx v w start en = vertical_side_tip v start en := by
      simp [arrowTip, hcov]
    refine ⟨htipv, ?_, ?_⟩
    · rw [htipv]
      by_cases hd : en.m_x - start.m_x > 0
      · exact Or.inl (by simp [vertical_side_tip, hd])
      · exact Or.inr (by simp [vertical_side_tip, hd])
    · rw [htipv]
      simp only [vertical_side_tip]
      field_simp
      ring
  · intro hdx hncov
    have htiph : arrowTip ctx v w start en = horizontal_side_tip v start en := by
      simp [arrowTip, hncov]
    refine ⟨htiph, ?_, ?_⟩
    · rw [htiph]
      by_cases hdy : en.m_y - start.m_y > 0
      · exact Or.inl (by simp [horizontal_side_tip, hdy])
      · exact Or.inr (by simp [horizontal_side_tip, hdy])
    · intro hdy0
      rw [htiph]
      simp only [horizontal_side_tip]
      field_simp
      ring
  · intro hdx hlen hpos hlen2
    have hne : len ≠ 0 := ne_of_gt hpos
    refine ⟨⟨(arrowTip ctx v w start en).m_x -
        getArrowSize ctx v w * (((arrowTip ctx v w start en).m_x - start.m_x) / len) -
        getArrowSize ctx v w / 4 * (((arrowTip ctx v w start en).m_y - start.m_y) / len),
      (arrowTip ctx v w start en).m_y -
        getArrowSize ctx v w * (((arrowTip ctx v w start en).m_y - start.m_y) / len) +
        getArrowSize ctx v w / 4 * (((arrowTip ctx v w start en).m_x - start.m_x) / len)⟩,
      ⟨(arrowTip ctx v w start en).m_x -
        getArrowSize ctx v w * (((arrowTip ctx v w start en).m_x - start.m_x) / len) +
        getArrowSize ctx v w / 4 * (((arrowTip ctx v w start en).m_y - start.m_y) / len),
      (arrowTip ctx v w start en).m_y -
        getArrowSize ctx v w * (((arrowTip ctx v w start en).m_y - start.m_y) / len) -
        getArrowSize ctx v w / 4 * (((arrowTip ctx v w start en).m_x - start.m_x) / len)⟩,
      ?_, ?_, ?_, ?_⟩
    · simp [drawArrowHead, hdx, hlen]
    · simp only [sqDist]
      field_simp
      ring
    · simp only [sqDist, DPoint_add_def, DPoint_smul_def]
      field_simp
      linear_combination (-16 * len ^ 2 * getArrowSize ctx v w ^ 2) * hlen2
    · simp only [sqDist]
      field_simp
      linear_combination (-16 * len ^ 2 * getArrowSize ctx v w ^ 2) * hlen2

/-- Witness for C4's amended statement, exercising all three branches:
the vertical-side tip for the horizontal approach (20,0)→(0,0) with its
triangle, the horizontal-side fallback for the steep approach
(20,100)→(0,0) whose vertical-side intersection (4,20) is outside the
covered band, and the vertical final segment (0,20)→(0,0). -/
theorem C4_arrow_head_geometry_witness :
    arrowTip srcyuml_edge_ctx arrowNode arrowNode ⟨20, 0⟩ ⟨0, 0⟩ =
      vertical_side_tip arrowNode ⟨20, 0⟩ ⟨0, 0⟩ ∧
    ((arrowTip srcyuml_edge_ctx arrowNode arrowNode ⟨20, 0⟩ ⟨0, 0⟩).m_x =
        arrowNode.x - arrowNode.width / 2 ∨
      (arrowTip srcyuml_edge_ctx arrowNode arrowNode ⟨20, 0⟩ ⟨0, 0⟩).m_x =
        arrowNode.x + arrowNode.width / 2) ∧
    ((arrowTip srcyuml_edge_ctx arrowNode arrowNode ⟨20, 0⟩ ⟨0, 0⟩).m_y -
        (DPoint.mk 20 0).m_y) * ((DPoint.mk 0 0).m_x - (DPoint.mk 20 0).m_x) =
      ((arrowTip srcyuml_edge_ctx arrowNode arrowNode ⟨20, 0⟩ ⟨0, 0⟩).m_x -
        (DPoint.mk 20 0).m_x) * ((DPoint.mk 0 0).m_y - (DPoint.mk 20 0).m_y) ∧
    (∃ b1 b2 : DPoint,
      (drawArrowHead (fun _ => 16) srcyuml_edge_ctx arrowNode arrowNode
          ⟨20, 0⟩ ⟨0, 0⟩).poly =
        [(arrowTip srcyuml_edge_ctx arrowNode arrowNode ⟨20, 0⟩ ⟨0, 0⟩).m_x,
         (arrowTip srcyuml_edge_ctx arrowNode arrowNode ⟨20, 0⟩ ⟨0, 0⟩).m_y,
         b1.m_x, b1.m_y, b2.m_x, b2.m_y] ∧
      sqDist (arrowTip srcyuml_edge_ctx arrowNode arrowNode ⟨20, 0⟩ ⟨0, 0⟩) b1 =
        sqDist (arrowTip srcyuml_edge_ctx arrowNode arrowNode ⟨20, 0⟩ ⟨0, 0⟩) b2 ∧
      sqDist (arrowTip srcyuml_edge_ctx arrowNode arrowNode ⟨20, 0⟩ ⟨0, 0⟩)
          ((0.5 : ℚ) * (b1 + b2)) =
        getArrowSize srcyuml_edge_ctx arrowNode arrowNode ^ 2 ∧
      sqDist b1 b2 = (getArrowSize srcyuml_edge_ctx arrowNode arrowNode / 2) ^ 2) ∧
    arrowTip srcyuml_edge_ctx arrowNode arrowNode ⟨20, 100⟩ ⟨0, 0⟩ =
      horizontal_side_tip arrowNode ⟨20, 100⟩ ⟨0, 0⟩ ∧
    ((arrowTip srcyuml_edge_ctx arrowNode arrowNode ⟨20, 100⟩ ⟨0, 0⟩).m_y =
        arrowNode.y - arrowNode.height / 2 ∨
      (arrowTip srcyuml_edge_ctx arrowNode arrowNode ⟨20, 100⟩ ⟨0, 0⟩).m_y =
        arrowNode.y + arrowNode.height / 2) ∧
    ((arrowTip srcyuml_edge_ctx arrowNode arrowNode ⟨20, 100⟩ ⟨0, 0⟩).m_y -
        (DPoint.mk 20 100).m_y) * ((DPoint.mk 0 0).m_x - (DPoint.mk 20 100).m_x) =
      ((arrowTip srcyuml_edge_ctx arrowNode arrowNode ⟨20, 100⟩ ⟨0, 0⟩).m_x -
        (DPoint.mk 20 100).m_x) * ((DPoint.mk 0 0).m_y - (DPoint.mk 20 100).m_y) ∧
    ∃ tip b1 b2 : DPoint,
      (drawArrowHead (fun _ => 16) srcyuml_edge_ctx arrowNode arrowNode
          ⟨0, 20⟩ ⟨0, 0⟩).poly =
        [tip.m_x, tip.m_y, b1.m_x, b1.m_y, b2.m_x, b2.m_y] ∧
      tip.m_x = (DPoint.mk 0 0).m_x ∧
      (tip.m_y = arrowNode.y - arrowNode.height / 2 ∨
        tip.m_y = arrowNode.y + arrowNode.height / 2) ∧
      sqDist tip b1 = sqDist tip b2 ∧
      sqDist tip ((0.5 : ℚ) * (b1 + b2)) =
        getArrowSize srcyuml_edge_ctx arrowNode arrowNode ^ 2 ∧
      sqDist b1 b2 = (getArrowSize srcyuml_edge_ctx arrowNode arrowNode / 2) ^ 2 := by
  have hv := C4_arrow_head_geometry (fun _ => 16) srcyuml_edge_ctx arrowNode
    arrowNode ⟨20, 0⟩ ⟨0, 0⟩ 16 (by decide) (by decide)
  have hf := C4_arrow_head_geometry (fun _ => 16) srcyuml_edge_ctx arrowNode
    arrowNode ⟨20, 100⟩ ⟨0, 0⟩ 16 (by decide) (by decide)
  have hz := C4_arrow_head_geometry (fun _ => 16) srcyuml_edge_ctx arrowNode
    arrowNode ⟨0, 20⟩ ⟨0, 0⟩ 16 (by decide) (by decide)
  obtain ⟨hcN, hcS, hcC⟩ := hv.2.2.2.1 (by norm_num)
    (by norm_num [vertical_side_tip, isCoveredBy, getArrowSize,
      srcyuml_edge_ctx, arrowNode])
  obtain ⟨hfN, hfS, hfC⟩ := hf.2.2.2.2.1 (by norm_num)
    (by norm_num [vertical_side_tip, isCoveredBy, getArrowSize,
      srcyuml_edge_ctx, arrowNode])
  refine ⟨hcN, hcS, hcC, ?_, hfN, hfS, hfC (by norm_num), ?_⟩
  · exact hv.2.2.2.2.2 (by norm_num) rfl (by norm_num)
      (by norm_num [arrowTip, vertical_side_tip, isCoveredBy, getArrowSize,
        srcyuml_edge_ctx, arrowNode])
  · exact hz.2.1 (by norm_num)
